import Mathlib

/-!
# Verification of the PPTX audio-embedding and markdown-to-deck utilities

Shallow embedding of `src/cmd/embed_audio.py` and `src/md_to_pptx.py`.
Python strings are modelled as `List Char`; the filesystem state touched by an
embedding run is modelled explicitly.  Every definition follows the source
code; definitions that formalise the specification's own vocabulary (used to
state refuted claims) are marked as such in their doc comments.
-/

set_option autoImplicit false

/-- Python strings are modelled as lists of characters. -/
abbrev Name := List Char

/-- The whitespace characters removed by Python `str.strip()` (ASCII range). -/
def isPySpace (c : Char) : Bool :=
  c = ' ' || c = '\t' || c = '\n' || c = '\r' || c = '\x0b' || c = '\x0c'

/-- Python `str.lstrip()` with no argument. -/
def lstrip (s : Name) : Name := s.dropWhile isPySpace

/-- Python `str.rstrip()` with no argument. -/
def rstrip (s : Name) : Name := (s.reverse.dropWhile isPySpace).reverse

/-- Python `str.strip()` with no argument. -/
def pyStrip (s : Name) : Name := rstrip (lstrip s)

/-- Python `s.startswith(pat)`; the pattern is the first argument. -/
def startsWith (pat s : Name) : Bool := pat.isPrefixOf s

/-- Python `s.endswith(pat)`; the pattern is the first argument. -/
def endsWith (pat s : Name) : Bool := pat.isSuffixOf s

/-- Fuel-driven worker for `splitOn` (Python `str.split(sep)` with a
non-empty separator).  The accumulator holds the current chunk reversed. -/
def splitOnAux (sep : Name) : Nat → Name → Name → List Name
  | 0, s, acc => [acc.reverse ++ s]
  | _ + 1, [], acc => [acc.reverse]
  | fuel + 1, c :: rest, acc =>
    if sep.isPrefixOf (c :: rest) then
      acc.reverse :: splitOnAux sep fuel ((c :: rest).drop sep.length) []
    else
      splitOnAux sep fuel rest (c :: acc)

/-- Python `s.split(sep)` for a non-empty separator: non-overlapping
left-to-right splitting, keeping empty chunks. -/
def splitOn (sep s : Name) : List Name := splitOnAux sep (s.length + 1) s []

/-- Fuel-driven worker for `replaceAll` (Python `str.replace`). -/
def replaceAllAux (pat repl : Name) : Nat → Name → Name
  | 0, s => s
  | _ + 1, [] => []
  | fuel + 1, c :: rest =>
    if pat.isPrefixOf (c :: rest) then
      repl ++ replaceAllAux pat repl fuel ((c :: rest).drop pat.length)
    else
      c :: replaceAllAux pat repl fuel rest

/-- Python `s.replace(pat, repl)` for a non-empty pattern: replaces every
non-overlapping occurrence, scanning left to right. -/
def replaceAll (pat repl s : Name) : Name := replaceAllAux pat repl (s.length + 1) s

/-- Python `pat in s` (substring containment). -/
def containsSeq (pat : Name) : Name → Bool
  | [] => pat.isEmpty
  | c :: rest => pat.isPrefixOf (c :: rest) || containsSeq pat rest

/-- Decimal digits of a natural number, via fuel (`fuel > n` suffices). -/
def natToDigitsAux : Nat → Nat → Name
  | 0, _ => []
  | fuel + 1, n =>
    if n < 10 then [Nat.digitChar n]
    else natToDigitsAux fuel (n / 10) ++ [Nat.digitChar (n % 10)]

/-- Python `str(n)` for a natural number. -/
def natToDigits (n : Nat) : Name := natToDigitsAux (n + 1) n

/-- Python `str(i)` for an integer. -/
def intToName (i : Int) : Name :=
  if i < 0 then '-' :: natToDigits i.natAbs else natToDigits i.toNat

/-- Value of the digit character `c` (only meaningful for `'0'..'9'`). -/
def charVal (c : Char) : Nat := c.toNat - 48

/-- Numeric value of a digit string, most significant digit first. -/
def digitsVal (s : Name) : Nat := s.foldl (fun a c => 10 * a + charVal c) 0

/-- Parse a non-empty all-digit string, `none` otherwise. -/
def parseDigits (s : Name) : Option Nat :=
  if s ≠ [] ∧ s.all Char.isDigit then some (digitsVal s) else none

/-- Python `int(s)`: surrounding whitespace and an optional sign are
accepted around a non-empty digit sequence, anything else raises (modelled
as `none`).  Underscore digit grouping is not modelled. -/
def pyInt? (s : Name) : Option Int :=
  match pyStrip s with
  | [] => none
  | c :: rest =>
    if c = '-' then (parseDigits rest).map (fun v => -(v : Int))
    else if c = '+' then (parseDigits rest).map (fun v => (v : Int))
    else (parseDigits (c :: rest)).map (fun v => (v : Int))

/-! ## Data model of the OOXML package state touched by `embed_audio.py` -/

/-- One `<Relationship>` entry of a slide's `.rels` part
(attributes `Id`, `Type`, `Target`). -/
structure Relationship where
  id : Name
  relType : Name
  target : Name
deriving DecidableEq

/-- One `<Default>` entry of `[Content_Types].xml`
(attributes `Extension`, `ContentType`). -/
structure CTDefault where
  extension : Name
  contentType : Name
deriving DecidableEq

/-- The parts of a `slideN.xml` document the script reads or writes: the
`id` attributes of its `cNvPr` elements (in document order) and whether the
document has a `p:cSld/p:spTree` node. -/
structure SlideDoc where
  cNvPrIds : List Name
  hasSpTree : Bool
deriving DecidableEq

/-- A slide together with its (possibly absent) relationship part. -/
structure SlidePart where
  doc : SlideDoc
  rels : Option (List Relationship)
deriving DecidableEq

/-- The package contents touched by an embedding run.  `slides.get? (n-1)`
models the file `ppt/slides/slide{n}.xml`; `media = none` models an absent
`ppt/media` folder; `contentTypes` holds the `<Default>` entries of
`[Content_Types].xml`. -/
structure Package where
  slides : List SlidePart
  media : Option (List Name)
  contentTypes : List CTDefault
deriving DecidableEq

/-- The filesystem locations an invocation of `embed_audio` touches:
the input package file, the audio file (only its existence matters), the
fixed-path scratch directory `temp_pptx_embed`, and the output package
file. -/
structure FS where
  pptx : Option Package
  mp3Exists : Bool
  scratch : Option Package
  output : Option Package
deriving DecidableEq

/-- Writing a file into a directory listing: creates the name if absent,
overwrites in place (no new directory entry) if present. -/
def writeFile (files : List Name) (name : Name) : List Name :=
  if name ∈ files then files else files ++ [name]

/-- Loop body of `get_next_media_number`: fold over the directory listing,
keeping the running maximum of every value parsed from a name that starts
with `media` and ends with `.mp3` (`filename.replace('media','').replace('.mp3','')`
fed to `int`), ignoring names whose residue does not parse. -/
def mediaScanStep (max_num : Int) (filename : Name) : Int :=
  if startsWith "media".data filename && endsWith ".mp3".data filename then
    match pyInt? (replaceAll ".mp3".data [] (replaceAll "media".data [] filename)) with
    | some num => max max_num num
    | none => max_num
  else max_num

/-- `get_next_media_number(media_dir)`: 1 when the folder is absent (the
source also creates it) and otherwise one more than the scanned maximum,
starting from 0. -/
def get_next_media_number (dir : Option (List Name)) : Int :=
  match dir with
  | none => 1
  | some files => files.foldl mediaScanStep 0 + 1

/-- Loop body of `get_next_rid`: running maximum over ids of the form the
`rId`-prefix scan accepts (`rid.replace('rId','')` fed to `int`). -/
def ridScanStep (max_num : Int) (r : Relationship) : Int :=
  if startsWith "rId".data r.id then
    match pyInt? (replaceAll "rId".data [] r.id) with
    | some num => max max_num num
    | none => max_num
  else max_num

/-- `get_next_rid(rels_file)`: one more than the scanned maximum, starting
from 0.  (Its result is computed but never used by `add_relationships`.) -/
def get_next_rid (rels : List Relationship) : Int :=
  rels.foldl ridScanStep 0 + 1

/-- Loop body of `get_next_shape_id`: running maximum over the `id`
attributes of `cNvPr` elements; the empty attribute value is skipped
(`if shape_id:`), as is anything `int` rejects. -/
def shapeScanStep (max_id : Int) (s : Name) : Int :=
  if s ≠ [] then
    match pyInt? s with
    | some v => max max_id v
    | none => max_id
  else max_id

/-- `get_next_shape_id(slide_file)`: one more than the scanned maximum,
starting from 1. -/
def get_next_shape_id (ids : List Name) : Int :=
  ids.foldl shapeScanStep 1 + 1

/-- `ensure_mp3_content_type`: no-op when a `<Default Extension="mp3">`
entry exists, otherwise inserts one at the front (`root.insert(0, ...)`). -/
def ensure_mp3_content_type (ct : List CTDefault) : List CTDefault :=
  if ct.any (fun d => d.extension == "mp3".data) then ct
  else ⟨"mp3".data, "audio/mpeg".data⟩ :: ct

/-- `ensure_png_content_type`: no-op when a `<Default Extension="png">`
entry exists, otherwise inserts one at the front. -/
def ensure_png_content_type (ct : List CTDefault) : List CTDefault :=
  if ct.any (fun d => d.extension == "png".data) then ct
  else ⟨"png".data, "image/png".data⟩ :: ct

/-- Number of `<Default>` entries for a given extension. -/
def countExt (ext : Name) (ct : List CTDefault) : Nat :=
  (ct.filter (fun d => d.extension == ext)).length

/-- File name `media{N}.mp3` written into `ppt/media`. -/
def mediaFileName (n : Int) : Name := "media".data ++ intToName n ++ ".mp3".data

/-- File name `image{N}.png` written into `ppt/media`. -/
def imageFileName (n : Int) : Name := "image".data ++ intToName n ++ ".png".data

/-- The canonical name `media{n}.mp3` of an existing asset numbered `n`,
used to state which existing assets the directory scan must exceed. -/
def mediaName (n : Nat) : Name := "media".data ++ natToDigits n ++ ".mp3".data

/-- Relationship target `../media/media{N}.mp3`. -/
def relTargetMedia (n : Int) : Name := "../media/media".data ++ intToName n ++ ".mp3".data

/-- Relationship target `../media/image{N}.png`. -/
def relTargetImage (n : Int) : Name := "../media/image".data ++ intToName n ++ ".png".data

/-- Type attribute of the vendor-extension media relationship. -/
def msMediaRelType : Name := "http://schemas.microsoft.com/office/2007/relationships/media".data

/-- Type attribute of the standard audio relationship. -/
def audioRelType : Name := "http://schemas.openxmlformats.org/officeDocument/2006/relationships/audio".data

/-- Type attribute of the icon image relationship. -/
def imageRelType : Name := "http://schemas.openxmlformats.org/officeDocument/2006/relationships/image".data

/-- `add_audio_to_slide(extract_dir, slide_num, ...)`: fails when
`slide{slide_num}.xml` does not exist or has no shape tree; otherwise
appends a `p:pic` drawing whose `cNvPr` carries `str(get_next_shape_id(...))`
as its `id`. -/
def add_audio_to_slide (slides : List SlidePart) (slide_num : Nat) : Option (List SlidePart) :=
  match slides.get? (slide_num - 1) with
  | none => none
  | some part =>
    if part.doc.hasSpTree then
      let shape_id := get_next_shape_id part.doc.cNvPrIds
      some (slides.set (slide_num - 1)
        { part with doc := { part.doc with cNvPrIds := part.doc.cNvPrIds ++ [intToName shape_id] } })
    else none

/-- `add_relationships(extract_dir, slide_num, media_num, icon_num)` acting
on one slide's relationship part: parses the file when present (otherwise an
empty root), computes `get_next_rid` without using it (as the source does),
and appends the three fixed-id edges. -/
def add_relationships (rels : Option (List Relationship)) (media_num icon_num : Int) :
    List Relationship :=
  let root := rels.getD []
  let _next_rid : Int := match rels with
    | some rs => get_next_rid rs
    | none => 1
  root ++
    [⟨"rIdMedia".data, msMediaRelType, relTargetMedia media_num⟩,
     ⟨"rIdAudio".data, audioRelType, relTargetMedia media_num⟩,
     ⟨"rIdIcon".data, imageRelType, relTargetImage icon_num⟩]

/-- Update the slide at a given index when it exists. -/
def modifySlide (slides : List SlidePart) (idx : Nat) (f : SlidePart → SlidePart) :
    List SlidePart :=
  match slides.get? idx with
  | none => slides
  | some part => slides.set idx (f part)

/-- Last index of `c` in `s` (`-1` when absent), modelling `str.rfind`. -/
def rfindIdx (c : Char) : Name → Int
  | [] => -1
  | x :: rest =>
    let r := rfindIdx c rest
    if r ≥ 0 then r + 1 else if x = c then 0 else -1

/-- `os.path.splitext` (POSIX): split off the extension at the last dot of
the final path component, unless every character between the component
start and that dot is itself a dot (hidden-file rule). -/
def splitext (p : Name) : Name × Name :=
  let sepIndex := rfindIdx '/' p
  let dotIndex := rfindIdx '.' p
  if sepIndex < dotIndex then
    if (((p.drop (sepIndex + 1).toNat).take (dotIndex - (sepIndex + 1)).toNat).all
        (fun c => c = '.')) then (p, [])
    else (p.take dotIndex.toNat, p.drop dotIndex.toNat)
  else (p, [])

/-- Output package path: `f'{splitext(pptx_file)[0]}_with_audio.pptx'`. -/
def output_file (pptx_file : Name) : Name :=
  (splitext pptx_file).1 ++ "_with_audio.pptx".data

/-- `embed_audio(slide_num, pptx_file, mp3_file)`, acting on the modelled
filesystem.  Returns the success flag and the final filesystem state.  The
three validation checks precede scratch-directory creation; every path
inside the `try` block ends with the `finally` cleanup, modelled as
`scratch := none` on those paths. -/
def embed_audio (slide_num : Int) (fs : FS) : Bool × FS :=
  match fs.pptx with
  | none => (false, fs)
  | some pkg =>
    if !fs.mp3Exists then (false, fs)
    else if slide_num < 1 then (false, fs)
    else
      let files0 := pkg.media.getD []
      let media_num := get_next_media_number pkg.media
      let icon_num := media_num
      let files1 := writeFile files0 (mediaFileName media_num)
      let files2 := writeFile files1 (imageFileName icon_num)
      let ct := ensure_png_content_type (ensure_mp3_content_type pkg.contentTypes)
      match add_audio_to_slide pkg.slides slide_num.toNat with
      | none => (false, { fs with scratch := none })
      | some slides1 =>
        let slides2 := modifySlide slides1 (slide_num.toNat - 1)
          (fun part => { part with rels := some (add_relationships part.rels media_num icon_num) })
        (true, { fs with output := some ⟨slides2, some files2, ct⟩, scratch := none })

/-- `sys.exit(0 if success else 1)` in `main`. -/
def main_exit_code (success : Bool) : Nat := if success then 0 else 1

/-! ## Data model of `md_to_pptx.py` -/

/-- Python `line.lstrip('#')`: drop every leading `#`. -/
def dropHashes (l : Name) : Name := l.dropWhile (fun c => c = '#')

/-- Python `s.strip('*')`: drop every leading and trailing `*`. -/
def stripStars (s : Name) : Name :=
  ((s.dropWhile (fun c => c = '*')).reverse.dropWhile (fun c => c = '*')).reverse

/-- A slide parsed out of one markdown segment: its title and its joined,
stripped content lines. -/
structure ParsedSlide where
  title : Name
  content : Name
deriving DecidableEq

/-- The title/content loop of `parse_markdown_slides`: lines starting with
`"# "` or `"## "` (re)assign the title after `lstrip('#').strip()`; lines
starting with `"### "` contribute their stripped text to the content; every
other line is kept verbatim.  The accumulator holds content lines
reversed. -/
def parseLoop (title : Name) (acc : List Name) : List Name → Name × List Name
  | [] => (title, acc.reverse)
  | line :: rest =>
    if startsWith "# ".data line then parseLoop (pyStrip (dropHashes line)) acc rest
    else if startsWith "## ".data line then parseLoop (pyStrip (dropHashes line)) acc rest
    else if startsWith "### ".data line then parseLoop title (pyStrip (dropHashes line) :: acc) rest
    else parseLoop title (line :: acc) rest

/-- Parse one markdown segment into a slide: split the stripped segment into
lines, run the title/content loop, join the content with newlines and strip
it. -/
def parseSegment (seg : Name) : ParsedSlide :=
  let lines := splitOn "\n".data (pyStrip seg)
  let tc := parseLoop [] [] lines
  ⟨tc.1, pyStrip (List.intercalate "\n".data tc.2)⟩

/-- The segments `parse_markdown_slides` keeps: split the input on `---`,
keep the stripped non-empty chunks, and drop the first one when it contains
`marp:` (the frontmatter block). -/
def keptSegments (md : Name) : List Name :=
  let slides := ((splitOn "---".data md).filter (fun s => pyStrip s ≠ [])).map pyStrip
  let slides := match slides with
    | [] => []
    | s0 :: rest => if containsSeq "marp:".data s0 then rest else s0 :: rest
  slides.filter (fun s => pyStrip s ≠ [])

/-- `parse_markdown_slides`: one parsed slide per kept segment, in order. -/
def parse_markdown_slides (md : Name) : List ParsedSlide :=
  (keptSegments md).map parseSegment

/-- One rendered paragraph of a content placeholder: its text run, indent
level, font size in points, and bold flag. -/
structure Para where
  text : Name
  level : Nat
  size : Nat
  bold : Bool
deriving DecidableEq

/-- The `re.match(r'^\d+\.', line.strip())` test: one or more digits
followed by a dot. -/
def matchNumbered (s : Name) : Bool :=
  decide (s.takeWhile Char.isDigit ≠ []) && startsWith ".".data (s.dropWhile Char.isDigit)

/-- `re.sub(r'^\d+\.\s*', '', s)`: when the pattern matches, remove the
digits, the dot and the following whitespace run. -/
def subNumbered (s : Name) : Name :=
  if matchNumbered s then ((s.dropWhile Char.isDigit).drop 1).dropWhile isPySpace else s

/-- The per-line branch cascade of `create_presentation`.  The bold branch
leaves the paragraph's indent level at the library default 0. -/
def renderLine (line : Name) : Para :=
  let s := pyStrip line
  if startsWith "- ".data s then ⟨s.drop 2, 0, 18, false⟩
  else if startsWith "  - ".data s then ⟨s.drop 2, 1, 16, false⟩
  else if matchNumbered s then ⟨subNumbered s, 0, 18, false⟩
  else if startsWith "**".data s && endsWith "**".data s then ⟨stripStars s, 0, 20, true⟩
  else ⟨s, 0, 18, false⟩

/-- One output slide of the deck: the title placeholder (fixed 32pt bold)
and the rendered content paragraphs. -/
structure DeckSlide where
  title : Name
  titleSize : Nat
  titleBold : Bool
  paras : List Para
deriving DecidableEq

/-- `create_presentation`: one deck slide per parsed slide, in order; the
content is split into lines, blank lines are skipped, and each remaining
line is rendered by the branch cascade. -/
def create_presentation (slides : List ParsedSlide) : List DeckSlide :=
  slides.map (fun sd =>
    ⟨sd.title, 32, true,
      ((splitOn "\n".data sd.content).filter (fun l => pyStrip l ≠ [])).map renderLine⟩)

/-- Formalises the spec's phrase: a heading line a segment's title is taken
from (`"# "` or `"## "` prefix). -/
def isTitleLine (l : Name) : Bool := startsWith "# ".data l || startsWith "## ".data l

/-- The last heading line of a segment's line list, if any. -/
def lastTitleLine (lines : List Name) : Option Name :=
  lines.foldl (fun acc l => if isTitleLine l then some l else acc) none

/-- Formalises the spec's phrase: a relationship id of the form `rId{N}`. -/
def isRIdToken (s : Name) : Bool :=
  startsWith "rId".data s && decide (s.drop 3 ≠ []) && (s.drop 3).all Char.isDigit

/-! ## Lemmas about the Python string model -/

theorem isPrefixOf_append_self : ∀ (p t : Name), p.isPrefixOf (p ++ t) = true
  | [], t => by simp [List.isPrefixOf]
  | c :: p', t => by
    show (c == c && p'.isPrefixOf (p' ++ t)) = true
    rw [beq_self_eq_true, Bool.true_and]
    exact isPrefixOf_append_self p' t

theorem isPrefixOf_cons_head (c : Char) (p' s : Name) (h : (c :: p').isPrefixOf s = true) :
    s.head? = some c := by
  cases s with
  | nil =>
    have hf : (c :: p').isPrefixOf ([] : Name) = false := rfl
    rw [hf] at h
    exact Bool.noConfusion h
  | cons d s' =>
    have h2 : (c == d && p'.isPrefixOf s') = true := h
    have hcd := eq_of_beq ((Bool.and_eq_true _ _).mp h2).1
    rw [List.head?_cons, hcd]

theorem isPrefixOf_cons_ne (c d : Char) (p' s' : Name) (h : c ≠ d) :
    (c :: p').isPrefixOf (d :: s') = false := by
  show (c == d && _) = false
  rw [beq_eq_false_iff_ne.mpr h, Bool.false_and]

theorem dropWhile_head_false (p : Char → Bool) :
    ∀ (s : Name) (c : Char), ((s.dropWhile p).head? = some c) → p c = false := by
  intro s
  induction s with
  | nil => intro c h; exact absurd h (by simp [List.dropWhile])
  | cons d s' ih =>
    intro c h
    rw [List.dropWhile_cons] at h
    by_cases hd : p d = true
    · rw [if_pos hd] at h
      exact ih c h
    · rw [if_neg hd, List.head?_cons, Option.some.injEq] at h
      subst h
      exact Bool.eq_false_iff.mpr hd

theorem exists_append_dropWhile (p : Char → Bool) :
    ∀ s : Name, ∃ u, u ++ s.dropWhile p = s := by
  intro s
  induction s with
  | nil => exact ⟨[], rfl⟩
  | cons d s' ih =>
    by_cases hd : p d = true
    · obtain ⟨u, hu⟩ := ih
      exact ⟨d :: u, by rw [List.dropWhile_cons, if_pos hd, List.cons_append, hu]⟩
    · exact ⟨[], by rw [List.dropWhile_cons, if_neg hd, List.nil_append]⟩

theorem rstrip_head (s : Name) (c : Char) (h : (rstrip s).head? = some c) :
    s.head? = some c := by
  obtain ⟨u, hu⟩ := exists_append_dropWhile isPySpace s.reverse
  have hs : s = rstrip s ++ u.reverse := by
    have h3 := congrArg List.reverse hu
    rw [List.reverse_append, List.reverse_reverse] at h3
    rw [rstrip]
    exact h3.symm
  cases hr : rstrip s with
  | nil => rw [hr] at h; exact absurd h (by simp)
  | cons x t =>
    rw [hr] at h hs
    rw [List.head?_cons] at h
    rw [hs, List.cons_append, List.head?_cons]
    exact h

theorem pyStrip_head_not_space (s : Name) (c : Char) (h : (pyStrip s).head? = some c) :
    isPySpace c = false := by
  have h2 : ((lstrip s).dropWhile isPySpace).head? = some c := by
    have h3 : (lstrip s).dropWhile isPySpace = lstrip s := by
      rw [lstrip, List.dropWhile_idempotent]
    rw [h3]
    exact rstrip_head (lstrip s) c h
  exact dropWhile_head_false isPySpace (lstrip s) c h2

theorem dropWhile_eq_self_of_all (p : Char → Bool) (s : Name)
    (h : ∀ c ∈ s, p c = false) : s.dropWhile p = s := by
  cases s with
  | nil => rfl
  | cons d s' =>
    rw [List.dropWhile_cons, if_neg]
    rw [h d (List.mem_cons_self d s')]
    exact Bool.false_ne_true

theorem pyStrip_eq_self (s : Name) (h : ∀ c ∈ s, isPySpace c = false) : pyStrip s = s := by
  have hl : lstrip s = s := dropWhile_eq_self_of_all isPySpace s h
  rw [pyStrip, hl, rstrip, dropWhile_eq_self_of_all isPySpace s.reverse
    (fun c hc => h c (List.mem_reverse.mp hc)), List.reverse_reverse]

/-! ## Lemmas about decimal rendering and parsing -/

theorem digitChar_spec (d : Nat) (h : d < 10) :
    (Nat.digitChar d).isDigit = true ∧ charVal (Nat.digitChar d) = d := by
  interval_cases d <;> exact ⟨by decide, by decide⟩

theorem digitsVal_append_single (a : Name) (c : Char) :
    digitsVal (a ++ [c]) = 10 * digitsVal a + charVal c := by
  rw [digitsVal, List.foldl_append]
  rfl

theorem natToDigitsAux_spec : ∀ (fuel n : Nat), n < fuel →
    natToDigitsAux fuel n ≠ [] ∧ (natToDigitsAux fuel n).all Char.isDigit = true ∧
      digitsVal (natToDigitsAux fuel n) = n := by
  intro fuel
  induction fuel with
  | zero => intro n h; exact absurd h (by omega)
  | succ f ih =>
    intro n h
    by_cases h10 : n < 10
    · rw [natToDigitsAux, if_pos h10]
      obtain ⟨hd, hv⟩ := digitChar_spec n h10
      refine ⟨by simp, by simp [hd], ?_⟩
      show digitsVal ([] ++ [Nat.digitChar n]) = n
      rw [digitsVal_append_single]
      simp [digitsVal, hv]
    · rw [natToDigitsAux, if_neg h10]
      have hdiv : n / 10 < f := by
        have h1 : n / 10 < n := Nat.div_lt_self (by omega) (by omega)
        omega
      obtain ⟨ih1, ih2, ih3⟩ := ih (n / 10) hdiv
      have hmod : n % 10 < 10 := Nat.mod_lt n (by omega)
      obtain ⟨hd, hv⟩ := digitChar_spec (n % 10) hmod
      refine ⟨by simp, by simp [List.all_append, ih2, hd], ?_⟩
      rw [digitsVal_append_single, ih3, hv]
      omega

theorem natToDigits_spec (n : Nat) :
    natToDigits n ≠ [] ∧ (natToDigits n).all Char.isDigit = true ∧
      digitsVal (natToDigits n) = n :=
  natToDigitsAux_spec (n + 1) n (by omega)

theorem parseDigits_natToDigits (n : Nat) : parseDigits (natToDigits n) = some n := by
  obtain ⟨h1, h2, h3⟩ := natToDigits_spec n
  rw [parseDigits, if_pos ⟨h1, h2⟩, h3]

theorem isDigit_not_space (c : Char) (h : c.isDigit = true) : isPySpace c = false := by
  cases hsp : isPySpace c
  · rfl
  · exfalso
    rw [isPySpace] at hsp
    simp only [Bool.or_eq_true, decide_eq_true_eq] at hsp
    rcases hsp with ((((rfl | rfl) | rfl) | rfl) | rfl) | rfl <;> exact absurd h (by decide)

theorem pyStrip_digits (s : Name) (h : s.all Char.isDigit = true) : pyStrip s = s :=
  pyStrip_eq_self s (fun c hc => isDigit_not_space c (List.all_eq_true.mp h c hc))

theorem pyInt?_natToDigits (n : Nat) : pyInt? (natToDigits n) = some (n : Int) := by
  obtain ⟨h1, h2, _⟩ := natToDigits_spec n
  rw [pyInt?, pyStrip_digits (natToDigits n) h2]
  cases hd : natToDigits n with
  | nil => exact absurd hd h1
  | cons c rest =>
    have hc : c.isDigit = true := by
      rw [hd, List.all_cons, Bool.and_eq_true] at h2
      exact h2.1
    have hne1 : ¬(c = '-') := by rintro rfl; exact absurd hc (by decide)
    have hne2 : ¬(c = '+') := by rintro rfl; exact absurd hc (by decide)
    simp only [if_neg hne1, if_neg hne2]
    rw [← hd, parseDigits_natToDigits]
    rfl

/-! ## Lemmas about `replace` and the directory scans -/

theorem replaceAllAux_no_occ (pat repl : Name) :
    ∀ (f : Nat) (s : Name), (∀ i, pat.isPrefixOf (s.drop i) = false) →
      replaceAllAux pat repl f s = s := by
  intro f
  induction f with
  | zero => intro s _; rfl
  | succ f ih =>
    intro s h
    cases s with
    | nil => rfl
    | cons c rest =>
      have h0 : pat.isPrefixOf (c :: rest) = false := by
        have h1 := h 0
        rwa [List.drop_zero] at h1
      have hstep : replaceAllAux pat repl (f + 1) (c :: rest) =
          if pat.isPrefixOf (c :: rest) then
            repl ++ replaceAllAux pat repl f ((c :: rest).drop pat.length)
          else c :: replaceAllAux pat repl f rest := rfl
      rw [hstep, if_neg (by rw [h0]; exact Bool.false_ne_true)]
      congr 1
      apply ih
      intro i
      have h2 := h (i + 1)
      rwa [List.drop_succ_cons] at h2

theorem replaceAllAux_left (pat repl t : Name) (f : Nat) (hp : pat ≠ []) (hf : 1 ≤ f) :
    replaceAllAux pat repl f (pat ++ t) = repl ++ replaceAllAux pat repl (f - 1) t := by
  cases f with
  | zero => omega
  | succ f' =>
    cases pat with
    | nil => exact absurd rfl hp
    | cons c p' =>
      have hstep : replaceAllAux (c :: p') repl (f' + 1) ((c :: p') ++ t) =
          if (c :: p').isPrefixOf ((c :: p') ++ t) then
            repl ++ replaceAllAux (c :: p') repl f' (((c :: p') ++ t).drop (c :: p').length)
          else c :: replaceAllAux (c :: p') repl f' (p' ++ t) := rfl
      rw [hstep, if_pos (by rw [isPrefixOf_append_self])]
      rw [List.drop_left]
      rfl

theorem no_media_occ : ∀ (d : Name), d.all Char.isDigit = true →
    ∀ i, "media".data.isPrefixOf ((d ++ ".mp3".data).drop i) = false := by
  intro d
  induction d with
  | nil =>
    intro _ i
    rw [List.nil_append]
    by_cases h4 : i ≤ 3
    · interval_cases i <;> decide
    · have hlen : (".mp3".data).length ≤ i := by
        have h5 : (".mp3".data).length = 4 := rfl
        omega
      rw [List.drop_eq_nil_of_le hlen]
      decide
  | cons c d' ih =>
    intro hd i
    have hc : c.isDigit = true := by
      rw [List.all_cons, Bool.and_eq_true] at hd; exact hd.1
    have hd' : d'.all Char.isDigit = true := by
      rw [List.all_cons, Bool.and_eq_true] at hd; exact hd.2
    cases i with
    | zero =>
      rw [List.cons_append, List.drop_zero]
      exact isPrefixOf_cons_ne 'm' c "edia".data _
        (fun h => by rw [← h] at hc; exact absurd hc (by decide))
    | succ j =>
      rw [List.cons_append, List.drop_succ_cons]
      exact ih hd' j

theorem replaceAll_digits_dotmp3 : ∀ (d : Name), d.all Char.isDigit = true →
    ∀ f, d.length + 5 ≤ f → replaceAllAux ".mp3".data [] f (d ++ ".mp3".data) = d := by
  intro d
  induction d with
  | nil =>
    intro _ f hf
    rw [List.nil_append]
    cases f with
    | zero => exact absurd hf (by omega)
    | succ f' =>
      have hstep : replaceAllAux ".mp3".data [] (f' + 1) (".mp3".data) =
          replaceAllAux ".mp3".data [] f' [] := rfl
      rw [hstep]
      cases f' <;> rfl
  | cons c d' ih =>
    intro hd f hf
    have hc : c.isDigit = true := by
      rw [List.all_cons, Bool.and_eq_true] at hd; exact hd.1
    have hd' : d'.all Char.isDigit = true := by
      rw [List.all_cons, Bool.and_eq_true] at hd; exact hd.2
    cases f with
    | zero => rw [List.length_cons] at hf; omega
    | succ f' =>
      rw [List.cons_append]
      have hcond : (".mp3".data).isPrefixOf (c :: (d' ++ ".mp3".data)) = false :=
        isPrefixOf_cons_ne '.' c "mp3".data _
          (fun h => by rw [← h] at hc; exact absurd hc (by decide))
      have hstep : replaceAllAux ".mp3".data [] (f' + 1) (c :: (d' ++ ".mp3".data)) =
          if (".mp3".data).isPrefixOf (c :: (d' ++ ".mp3".data)) then
            [] ++ replaceAllAux ".mp3".data [] f'
              ((c :: (d' ++ ".mp3".data)).drop (".mp3".data).length)
          else c :: replaceAllAux ".mp3".data [] f' (d' ++ ".mp3".data) := rfl
      rw [hstep, if_neg (by rw [hcond]; exact Bool.false_ne_true)]
      congr 1
      apply ih hd' f'
      rw [List.length_cons] at hf
      omega

theorem replaceAll_mediaName (n : Nat) :
    replaceAll "media".data [] ("media".data ++ natToDigits n ++ ".mp3".data) =
      natToDigits n ++ ".mp3".data := by
  rw [replaceAll, List.append_assoc]
  rw [replaceAllAux_left "media".data [] _ _ (by decide) (by omega)]
  rw [List.nil_append]
  exact replaceAllAux_no_occ _ _ _ _ (no_media_occ (natToDigits n) (natToDigits_spec n).2.1)

theorem replaceAll_digits_suffix (n : Nat) :
    replaceAll ".mp3".data [] (natToDigits n ++ ".mp3".data) = natToDigits n := by
  rw [replaceAll]
  apply replaceAll_digits_dotmp3 (natToDigits n) (natToDigits_spec n).2.1
  rw [List.length_append]
  have h4 : (".mp3".data).length = 4 := rfl
  omega

theorem endsWith_append_self (x p : Name) : endsWith p (x ++ p) = true := by
  show (p.reverse).isPrefixOf ((x ++ p).reverse) = true
  rw [List.reverse_append]
  exact isPrefixOf_append_self _ _

theorem mediaScanStep_mediaName (a : Int) (n : Nat) :
    mediaScanStep a (mediaName n) = max a (n : Int) := by
  rw [mediaScanStep, mediaName]
  rw [if_pos ?hc]
  case hc =>
    refine (Bool.and_eq_true _ _).mpr ⟨?_, ?_⟩
    · show "media".data.isPrefixOf ("media".data ++ natToDigits n ++ ".mp3".data) = true
      rw [List.append_assoc]
      exact isPrefixOf_append_self _ _
    · exact endsWith_append_self _ _
  rw [replaceAll_mediaName n, replaceAll_digits_suffix n, pyInt?_natToDigits n]

theorem foldl_int_ge {α : Type} (step : Int → α → Int) (hstep : ∀ a x, a ≤ step a x) :
    ∀ (l : List α) (a : Int), a ≤ l.foldl step a := by
  intro l
  induction l with
  | nil => intro a; exact le_refl a
  | cons x xs ih => intro a; exact le_trans (hstep a x) (ih (step a x))

theorem mediaScanStep_ge (a : Int) (x : Name) : a ≤ mediaScanStep a x := by
  rw [mediaScanStep]
  split
  · split
    · exact le_max_left _ _
    · exact le_refl a
  · exact le_refl a

theorem foldl_mediaScanStep_mem (n : Nat) :
    ∀ (files : List Name) (a : Int), mediaName n ∈ files →
      (n : Int) ≤ files.foldl mediaScanStep a := by
  intro files
  induction files with
  | nil => intro a h; exact absurd h (List.not_mem_nil _)
  | cons x xs ih =>
    intro a h
    rw [List.foldl_cons]
    rcases List.mem_cons.mp h with h1 | h2
    · have hx : mediaScanStep a x = max a (n : Int) := by
        rw [← h1, mediaScanStep_mediaName]
      rw [hx]
      exact le_trans (le_max_right a (n : Int)) (foldl_int_ge mediaScanStep mediaScanStep_ge xs _)
    · exact ih (mediaScanStep a x) h2

theorem media_bound (files : List Name) (n : Nat) (h : mediaName n ∈ files) :
    (n : Int) < get_next_media_number (some files) := by
  have h1 := foldl_mediaScanStep_mem n files 0 h
  show (n : Int) < files.foldl mediaScanStep 0 + 1
  omega

theorem get_next_media_number_pos (files : List Name) :
    1 ≤ get_next_media_number (some files) := by
  have h1 := foldl_int_ge mediaScanStep mediaScanStep_ge files 0
  show 1 ≤ files.foldl mediaScanStep 0 + 1
  omega

theorem intToName_nonneg (m : Int) (h : 0 ≤ m) : intToName m = natToDigits m.toNat := by
  rw [intToName, if_neg (by omega)]

theorem mediaFileName_not_mem (files : List Name) :
    mediaFileName (get_next_media_number (some files)) ∉ files := by
  intro hmem
  have h1 := get_next_media_number_pos files
  have h2 : mediaFileName (get_next_media_number (some files)) =
      mediaName (get_next_media_number (some files)).toNat := by
    rw [mediaFileName, mediaName, intToName_nonneg _ (by omega)]
  rw [h2] at hmem
  have h3 := media_bound files _ hmem
  omega

theorem shapeScanStep_ge (a : Int) (x : Name) : a ≤ shapeScanStep a x := by
  rw [shapeScanStep]
  split
  · split
    · exact le_max_left _ _
    · exact le_refl a
  · exact le_refl a

theorem pyInt?_nil : pyInt? ([] : Name) = none := rfl

theorem foldl_shapeScanStep_mem (s : Name) (v : Int) (hv : pyInt? s = some v) :
    ∀ (ids : List Name) (a : Int), s ∈ ids → v ≤ ids.foldl shapeScanStep a := by
  have hs : s ≠ [] := by
    rintro rfl
    rw [pyInt?_nil] at hv
    exact Option.noConfusion hv
  intro ids
  induction ids with
  | nil => intro a h; exact absurd h (List.not_mem_nil _)
  | cons x xs ih =>
    intro a h
    rw [List.foldl_cons]
    rcases List.mem_cons.mp h with h1 | h2
    · have hx : shapeScanStep a x = max a v := by
        rw [← h1, shapeScanStep, if_pos hs, hv]
      rw [hx]
      exact le_trans (le_max_right a v) (foldl_int_ge shapeScanStep shapeScanStep_ge xs _)
    · exact ih (shapeScanStep a x) h2

theorem shape_id_bound (ids : List Name) (s : Name) (v : Int) (hs : s ∈ ids)
    (hv : pyInt? s = some v) : v < get_next_shape_id ids := by
  have h1 := foldl_shapeScanStep_mem s v hv ids 1 hs
  rw [get_next_shape_id]
  omega

theorem get_next_shape_id_ge_two (ids : List Name) : 2 ≤ get_next_shape_id ids := by
  have h1 := foldl_int_ge shapeScanStep shapeScanStep_ge ids 1
  rw [get_next_shape_id]
  omega

/-! ## Lemmas about `splitext` and the output path -/

theorem rfindIdx_ge (c : Char) : ∀ s : Name, -1 ≤ rfindIdx c s := by
  intro s
  cases s with
  | nil => norm_num [rfindIdx]
  | cons x rest =>
    simp only [rfindIdx]
    split_ifs with h1 h2
    · omega
    · omega
    · omega

theorem rfindIdx_head (c : Char) : ∀ s : Name, 0 ≤ rfindIdx c s →
    (s.drop (rfindIdx c s).toNat).head? = some c := by
  intro s
  induction s with
  | nil => intro h; norm_num [rfindIdx] at h
  | cons x rest ih =>
    intro h
    simp only [rfindIdx] at h ⊢
    by_cases h1 : rfindIdx c rest ≥ 0
    · rw [if_pos h1] at h ⊢
      have ht : (rfindIdx c rest + 1).toNat = (rfindIdx c rest).toNat + 1 := by omega
      rw [ht, List.drop_succ_cons]
      exact ih h1
    · rw [if_neg h1] at h ⊢
      by_cases h2 : x = c
      · rw [if_pos h2] at h ⊢
        rw [Int.toNat_zero, List.drop_zero, List.head?_cons, h2]
      · rw [if_neg h2] at h
        exact absurd h (by norm_num)

theorem splitext_append (p : Name) : (splitext p).1 ++ (splitext p).2 = p := by
  simp only [splitext]
  split_ifs <;> simp [List.take_append_drop]

theorem splitext_ext (p : Name) :
    (splitext p).2 = [] ∨ ((splitext p).2).head? = some '.' := by
  simp only [splitext]
  split_ifs with h1 h2
  · left; rfl
  · right
    have h0 : 0 ≤ rfindIdx '.' p := by
      have h3 := rfindIdx_ge '/' p
      omega
    exact rfindIdx_head '.' p h0
  · left; rfl

theorem output_file_ne (p : Name) : output_file p ≠ p := by
  intro h
  have h2 := splitext_append p
  rw [output_file] at h
  have h3 : (splitext p).1 ++ "_with_audio.pptx".data = (splitext p).1 ++ (splitext p).2 :=
    h.trans h2.symm
  have h4 := List.append_cancel_left h3
  rcases splitext_ext p with he | he
  · rw [he] at h4
    exact absurd h4 (by decide)
  · rw [← h4] at he
    exact absurd he (by decide)

/-! ## Lemmas about the relationship edges -/

theorem relTarget_ne (m i : Int) : relTargetMedia m ≠ relTargetImage i := by
  intro h
  have h9 := congrArg (fun l : Name => (l.drop 9).head?) h
  have h10 : (some 'm' : Option Char) = some 'i' := h9
  exact absurd h10 (by decide)

/-! ## Path lemmas for `embed_audio` -/

theorem embed_audio_no_pptx (slide_num : Int) (fs : FS) (hp : fs.pptx = none) :
    embed_audio slide_num fs = (false, fs) := by
  rw [embed_audio, hp]

theorem embed_audio_no_mp3 (slide_num : Int) (fs : FS) (pkg : Package)
    (hp : fs.pptx = some pkg) (hm : fs.mp3Exists = false) :
    embed_audio slide_num fs = (false, fs) := by
  rw [embed_audio, hp]
  simp [hm]

theorem embed_audio_bad_slide_num (slide_num : Int) (fs : FS) (pkg : Package)
    (hp : fs.pptx = some pkg) (hm : fs.mp3Exists = true) (hs : slide_num < 1) :
    embed_audio slide_num fs = (false, fs) := by
  rw [embed_audio, hp]
  simp [hm, hs]

theorem embed_audio_no_slide (slide_num : Int) (fs : FS) (pkg : Package)
    (hp : fs.pptx = some pkg) (hm : fs.mp3Exists = true) (hs : ¬ slide_num < 1)
    (ha : add_audio_to_slide pkg.slides slide_num.toNat = none) :
    embed_audio slide_num fs = (false, { fs with scratch := none }) := by
  rw [embed_audio, hp]
  simp [hm, hs, ha]

theorem embed_audio_success (slide_num : Int) (fs : FS) (pkg : Package)
    (hp : fs.pptx = some pkg) (hm : fs.mp3Exists = true) (hs : ¬ slide_num < 1)
    (slides1 : List SlidePart)
    (ha : add_audio_to_slide pkg.slides slide_num.toNat = some slides1) :
    embed_audio slide_num fs =
      (true, { fs with
        output := some
          ⟨modifySlide slides1 (slide_num.toNat - 1)
              (fun part => { part with rels := some (add_relationships part.rels
                (get_next_media_number pkg.media) (get_next_media_number pkg.media)) }),
            some (writeFile (writeFile (pkg.media.getD [])
              (mediaFileName (get_next_media_number pkg.media)))
              (imageFileName (get_next_media_number pkg.media))),
            ensure_png_content_type (ensure_mp3_content_type pkg.contentTypes)⟩,
        scratch := none }) := by
  rw [embed_audio, hp]
  simp [hm, hs, ha]

/-! ## Lemmas about the markdown parser -/

theorem lastTitleLine_foldl (rest : List Name) :
    ∀ a : Option Name,
      rest.foldl (fun acc l => if isTitleLine l then some l else acc) a =
        match lastTitleLine rest with
        | some x => some x
        | none => a := by
  induction rest with
  | nil => intro a; rfl
  | cons l rs ih =>
    intro a
    have hR : lastTitleLine (l :: rs) =
        match lastTitleLine rs with
        | some x => some x
        | none => (if isTitleLine l then some l else none) := by
      rw [lastTitleLine, List.foldl_cons]
      exact ih _
    rw [List.foldl_cons, ih, hR]
    cases h : lastTitleLine rs <;> by_cases ht : isTitleLine l = true <;> simp [ht]

theorem parseLoop_title : ∀ (lines : List Name) (t : Name) (acc : List Name),
    (parseLoop t acc lines).1 =
      match lastTitleLine lines with
      | some l => pyStrip (dropHashes l)
      | none => t := by
  intro lines
  induction lines with
  | nil => intro t acc; rfl
  | cons line rest ih =>
    intro t acc
    have hR : lastTitleLine (line :: rest) =
        match lastTitleLine rest with
        | some x => some x
        | none => (if isTitleLine line then some line else none) := by
      rw [lastTitleLine, List.foldl_cons]
      exact lastTitleLine_foldl rest _
    have hstep : parseLoop t acc (line :: rest) =
        if startsWith "# ".data line then parseLoop (pyStrip (dropHashes line)) acc rest
        else if startsWith "## ".data line then parseLoop (pyStrip (dropHashes line)) acc rest
        else if startsWith "### ".data line then parseLoop t (pyStrip (dropHashes line) :: acc) rest
        else parseLoop t (line :: acc) rest := rfl
    by_cases h1 : startsWith "# ".data line = true
    · have ht : isTitleLine line = true := by rw [isTitleLine, h1, Bool.true_or]
      rw [hstep, if_pos h1, ih, hR]
      cases h : lastTitleLine rest <;> simp [ht]
    · by_cases h2 : startsWith "## ".data line = true
      · have ht : isTitleLine line = true := by rw [isTitleLine, h2, Bool.or_true]
        rw [hstep, if_neg h1, if_pos h2, ih, hR]
        cases h : lastTitleLine rest <;> simp [ht]
      · have ht : isTitleLine line = false := by
          rw [isTitleLine]
          rw [Bool.eq_false_iff.mpr h1, Bool.eq_false_iff.mpr h2, Bool.or_false]
        by_cases h3 : startsWith "### ".data line = true
        · rw [hstep, if_neg h1, if_neg h2, if_pos h3, ih, hR]
          cases h : lastTitleLine rest <;> simp [ht]
        · rw [hstep, if_neg h1, if_neg h2, if_neg h3, ih, hR]
          cases h : lastTitleLine rest <;> simp [ht]

theorem pyStrip_no_indent (line : Name) : startsWith "  - ".data (pyStrip line) = false := by
  cases hsw : startsWith "  - ".data (pyStrip line)
  · rfl
  · exfalso
    have hh : (pyStrip line).head? = some ' ' :=
      isPrefixOf_cons_head ' ' (' ' :: '-' :: ' ' :: []) _ hsw
    have hns := pyStrip_head_not_space line ' ' hh
    exact absurd hns (by decide)

/-! ## Claim theorems -/

/-- C1 (amended): within one run `add_relationships` appends exactly the three
fixed relationship ids `rIdMedia`, `rIdAudio`, `rIdIcon` — pairwise distinct
within the run, but not `rId{N}` tokens, and identical from run to run — while
the shape id appended by `add_audio_to_slide` is `get_next_shape_id`, which is
strictly greater than every numeric `cNvPr` id already present in the slide
document and at least 2. -/
theorem c1_fixed_rel_ids_and_shape_id_bound :
    (∀ (rels : Option (List Relationship)) (m i : Int),
      (add_relationships rels m i).map Relationship.id =
        (rels.getD []).map Relationship.id ++
          ["rIdMedia".data, "rIdAudio".data, "rIdIcon".data]) ∧
    ("rIdMedia".data ≠ "rIdAudio".data ∧ "rIdMedia".data ≠ "rIdIcon".data ∧
      "rIdAudio".data ≠ "rIdIcon".data) ∧
    (∀ (slides : List SlidePart) (slide_num : Nat) (part : SlidePart),
      slides.get? (slide_num - 1) = some part → part.doc.hasSpTree = true →
      add_audio_to_slide slides slide_num = some (slides.set (slide_num - 1)
        { part with doc := { part.doc with cNvPrIds := part.doc.cNvPrIds ++
            [intToName (get_next_shape_id part.doc.cNvPrIds)] } })) ∧
    (∀ (ids : List Name) (s : Name) (v : Int), s ∈ ids → pyInt? s = some v →
      v < get_next_shape_id ids) ∧
    (∀ ids : List Name, 2 ≤ get_next_shape_id ids) := by
  refine ⟨?_, ⟨by decide, by decide, by decide⟩, ?_, shape_id_bound, get_next_shape_id_ge_two⟩
  · intro rels m i
    simp only [add_relationships, List.map_append]
    rfl
  · intro slides slide_num part hget hsp
    simp only [add_audio_to_slide, hget]
    rw [if_pos hsp]

/-- C1 counterexample: with a relationship file already containing an edge whose
id is `rIdMedia`, the run assigns the very same id again — so an assigned id is
not greater than every id already present and is reused — and `rIdMedia` is not
an `rId{N}` token. -/
theorem c1_counterexample :
    (add_relationships (some [⟨"rIdMedia".data, "t".data, "x".data⟩]) 1 1).map Relationship.id =
      ["rIdMedia".data, "rIdMedia".data, "rIdAudio".data, "rIdIcon".data] ∧
    isRIdToken "rIdMedia".data = false :=
  ⟨by decide, by decide⟩

/-- C1 witness: the amended claim evaluated on a slide whose only `cNvPr` id is
`3`: the shape id appended is `get_next_shape_id ["3"] = 4 > 3 ≥ 2`. -/
theorem c1_witness :
    add_audio_to_slide [⟨⟨["3".data], true⟩, none⟩] 1 =
      some [⟨⟨["3".data, intToName (get_next_shape_id ["3".data])], true⟩, none⟩] ∧
    (3 : Int) < get_next_shape_id ["3".data] ∧
    2 ≤ get_next_shape_id ["3".data] := by
  refine ⟨?_, ?_, ?_⟩
  · exact c1_fixed_rel_ids_and_shape_id_bound.2.2.1
      [⟨⟨["3".data], true⟩, none⟩] 1 ⟨⟨["3".data], true⟩, none⟩ rfl rfl
  · exact c1_fixed_rel_ids_and_shape_id_bound.2.2.2.1 ["3".data] "3".data 3
      (by decide) (by decide)
  · exact c1_fixed_rel_ids_and_shape_id_bound.2.2.2.2 ["3".data]

/-- C2 (amended): the `media{N}.mp3` name is derived by scanning the existing
`media*.mp3` names and never collides with an existing asset of that pattern;
the icon number however is not independent — the run sets `icon_num = media_num`
and writes `image{N}.png` without checking existing file names, so the icon name
can coincide with (and overwrite) a pre-existing file. -/
theorem c2_media_scan_and_icon_number :
    (∀ (files : List Name) (n : Nat), mediaName n ∈ files →
      (n : Int) < get_next_media_number (some files)) ∧
    (∀ files : List Name, mediaFileName (get_next_media_number (some files)) ∉ files) ∧
    (∀ (slide_num : Int) (fs : FS) (pkg : Package) (fs' : FS),
      fs.pptx = some pkg → embed_audio slide_num fs = (true, fs') →
      ∃ out : Package, fs'.output = some out ∧
        out.media = some (writeFile (writeFile (pkg.media.getD [])
          (mediaFileName (get_next_media_number pkg.media)))
          (imageFileName (get_next_media_number pkg.media)))) := by
  refine ⟨media_bound, mediaFileName_not_mem, ?_⟩
  intro sn fs pkg fs' hp hEq
  cases hm : fs.mp3Exists with
  | false =>
    rw [embed_audio_no_mp3 sn fs pkg hp hm] at hEq
    exact Bool.noConfusion (congrArg Prod.fst hEq)
  | true =>
    by_cases hs : sn < 1
    · rw [embed_audio_bad_slide_num sn fs pkg hp hm hs] at hEq
      exact Bool.noConfusion (congrArg Prod.fst hEq)
    · cases ha : add_audio_to_slide pkg.slides sn.toNat with
      | none =>
        rw [embed_audio_no_slide sn fs pkg hp hm hs ha] at hEq
        exact Bool.noConfusion (congrArg Prod.fst hEq)
      | some slides1 =>
        rw [embed_audio_success sn fs pkg hp hm hs slides1 ha] at hEq
        injection hEq with h1 h2
        exact ⟨_, by rw [← h2], rfl⟩

/-- C2 counterexample: a package whose media folder already holds `image1.png`
but no mp3: the run succeeds with `media_num = icon_num = 1` and writes its icon
to the pre-existing name `image1.png` (no new directory entry appears), so the
icon name collides with a pre-existing file and the two numbering spaces are not
independent. -/
theorem c2_counterexample :
    get_next_media_number (some ["image1.png".data]) = 1 ∧
    imageFileName (get_next_media_number (some ["image1.png".data])) = "image1.png".data ∧
    (embed_audio 1 ⟨some ⟨[⟨⟨[], true⟩, none⟩], some ["image1.png".data], []⟩,
      true, none, none⟩).1 = true ∧
    ((embed_audio 1 ⟨some ⟨[⟨⟨[], true⟩, none⟩], some ["image1.png".data], []⟩,
      true, none, none⟩).2.output).map Package.media =
      some (some ["image1.png".data, "media1.mp3".data]) := by
  refine ⟨by decide, by decide, by decide, by decide⟩

/-- C2 witness: the amended claim evaluated on the folder `[media7.mp3]`: the
scan exceeds 7, and the next mp3 name is fresh. -/
theorem c2_witness :
    (7 : Int) < get_next_media_number (some ["media7.mp3".data]) ∧
    mediaFileName (get_next_media_number (some ["media7.mp3".data])) ∉
      ["media7.mp3".data] := by
  refine ⟨?_, c2_media_scan_and_icon_number.2.1 ["media7.mp3".data]⟩
  exact c2_media_scan_and_icon_number.1 ["media7.mp3".data] 7 (by decide)

/-- C3 (amended): `get_next_media_number` returns 1 on an absent or empty
folder, otherwise one more than the maximum value its scan parses out of names
that start with `media` and end with `.mp3` — in particular strictly more than
`n` for every existing `media{n}.mp3` — and it ignores malformed names without
error.  Consequently an embedding adds one asset numbered one more than the
maximum existing media number, which is not `N + 1` for `N` the asset count. -/
theorem c3_next_media_number :
    get_next_media_number none = 1 ∧
    get_next_media_number (some []) = 1 ∧
    (∀ (files : List Name) (n : Nat), mediaName n ∈ files →
      (n : Int) < get_next_media_number (some files)) ∧
    (∀ files : List Name, 1 ≤ get_next_media_number (some files)) ∧
    get_next_media_number (some ["mediaX.mp3".data, "notes.txt".data, "image3.png".data]) = 1 ∧
    get_next_media_number (some ["media2.mp3".data, "media10.mp3".data, "media3.mp3".data]) = 11 :=
  ⟨rfl, by decide, media_bound, get_next_media_number_pos, by decide, by decide⟩

/-- C3 counterexample: a folder holding exactly one asset, `media5.mp3`
(`N = 1`): the next number is 6, not `N + 1 = 2`. -/
theorem c3_counterexample :
    (["media5.mp3".data] : List Name).length = 1 ∧
    get_next_media_number (some ["media5.mp3".data]) = 6 :=
  ⟨by decide, by decide⟩

/-- C3 witness: the bound of the amended claim evaluated on `[media4.mp3]`. -/
theorem c3_witness :
    (4 : Int) < get_next_media_number (some ["media4.mp3".data]) :=
  c3_next_media_number.2.2.1 ["media4.mp3".data] 4 (by decide)

/-- C4: `embed_audio` fails — yielding exit code 1 — whenever the package file
is missing, the audio file is missing, the requested slide number is below 1,
or the requested slide does not exist in the package. -/
theorem c4_validation_failures (slide_num : Int) (fs : FS) :
    (fs.pptx = none → (embed_audio slide_num fs).1 = false) ∧
    (fs.mp3Exists = false → (embed_audio slide_num fs).1 = false) ∧
    (slide_num < 1 → (embed_audio slide_num fs).1 = false) ∧
    (∀ pkg : Package, fs.pptx = some pkg → (pkg.slides.length : Int) < slide_num →
      (embed_audio slide_num fs).1 = false) ∧
    ((embed_audio slide_num fs).1 = false →
      main_exit_code (embed_audio slide_num fs).1 = 1) := by
  refine ⟨?_, ?_, ?_, ?_, ?_⟩
  · intro hp
    rw [embed_audio_no_pptx _ _ hp]
  · intro hm
    cases hp : fs.pptx with
    | none => rw [embed_audio_no_pptx _ _ hp]
    | some pkg => rw [embed_audio_no_mp3 _ _ pkg hp hm]
  · intro hs
    cases hp : fs.pptx with
    | none => rw [embed_audio_no_pptx _ _ hp]
    | some pkg =>
      cases hm : fs.mp3Exists with
      | false => rw [embed_audio_no_mp3 _ _ pkg hp hm]
      | true => rw [embed_audio_bad_slide_num _ _ pkg hp hm hs]
  · intro pkg hp hlen
    cases hm : fs.mp3Exists with
    | false => rw [embed_audio_no_mp3 _ _ pkg hp hm]
    | true =>
      by_cases hs : slide_num < 1
      · rw [embed_audio_bad_slide_num _ _ pkg hp hm hs]
      · have hget : pkg.slides.get? (slide_num.toNat - 1) = none := by
          rw [List.get?_eq_none]
          omega
        have ha : add_audio_to_slide pkg.slides slide_num.toNat = none := by
          rw [add_audio_to_slide, hget]
        rw [embed_audio_no_slide _ _ pkg hp hm hs ha]
  · intro hf
    rw [hf]
    rfl

/-- C4 witness: the failure cases evaluated concretely — an empty-slide-list
package with slide number 0, and a one-slide package asked for slide 5. -/
theorem c4_witness :
    (embed_audio 0 ⟨some ⟨[], none, []⟩, true, none, none⟩).1 = false ∧
    main_exit_code (embed_audio 0 ⟨some ⟨[], none, []⟩, true, none, none⟩).1 = 1 ∧
    (embed_audio 5 ⟨some ⟨[⟨⟨[], true⟩, none⟩], none, []⟩, true, none, none⟩).1 = false := by
  have h1 := (c4_validation_failures 0 ⟨some ⟨[], none, []⟩, true, none, none⟩).2.2.1
    (by norm_num)
  have h2 := (c4_validation_failures 0 ⟨some ⟨[], none, []⟩, true, none, none⟩).2.2.2.2 h1
  have h3 := (c4_validation_failures 5
    ⟨some ⟨[⟨⟨[], true⟩, none⟩], none, []⟩, true, none, none⟩).2.2.2.1
    ⟨[⟨⟨[], true⟩, none⟩], none, []⟩ rfl (by norm_num)
  exact ⟨h1, h2, h3⟩

/-- C5: the input package slot is never written; every failing invocation
leaves the output slot untouched (the package is only written as the very last
step of the success path); and the output path `{base}_with_audio.pptx` never
coincides with the input path. -/
theorem c5_no_partial_commit (slide_num : Int) (fs : FS) :
    (embed_audio slide_num fs).2.pptx = fs.pptx ∧
    ((embed_audio slide_num fs).1 = false →
      (embed_audio slide_num fs).2.output = fs.output) ∧
    (∀ p : Name, output_file p ≠ p) := by
  have hmain : (embed_audio slide_num fs).2.pptx = fs.pptx ∧
      ((embed_audio slide_num fs).1 = false →
        (embed_audio slide_num fs).2.output = fs.output) := by
    cases hp : fs.pptx with
    | none =>
      rw [embed_audio_no_pptx _ _ hp]
      exact ⟨hp, fun _ => rfl⟩
    | some pkg =>
      cases hm : fs.mp3Exists with
      | false =>
        rw [embed_audio_no_mp3 _ _ pkg hp hm]
        exact ⟨hp, fun _ => rfl⟩
      | true =>
        by_cases hs : slide_num < 1
        · rw [embed_audio_bad_slide_num _ _ pkg hp hm hs]
          exact ⟨hp, fun _ => rfl⟩
        · cases ha : add_audio_to_slide pkg.slides slide_num.toNat with
          | none =>
            rw [embed_audio_no_slide _ _ pkg hp hm hs ha]
            exact ⟨hp, fun _ => rfl⟩
          | some slides1 =>
            rw [embed_audio_success _ _ pkg hp hm hs slides1 ha]
            exact ⟨hp, fun hfalse => Bool.noConfusion hfalse⟩
  exact ⟨hmain.1, hmain.2, output_file_ne⟩

/-- C5 witness: a failing run (missing audio) leaves both slots untouched, and
the output path differs from the input path on a concrete file name. -/
theorem c5_witness :
    (embed_audio 1 ⟨some ⟨[], none, []⟩, false, none, none⟩).2.pptx =
      some ⟨[], none, []⟩ ∧
    (embed_audio 1 ⟨some ⟨[], none, []⟩, false, none, none⟩).2.output = none ∧
    output_file "talk.pptx".data ≠ "talk.pptx".data := by
  have h := c5_no_partial_commit 1 ⟨some ⟨[], none, []⟩, false, none, none⟩
  exact ⟨h.1, h.2.1 (by decide), h.2.2 "talk.pptx".data⟩

theorem add_audio_to_slide_inv (slides : List SlidePart) (n : Nat) (slides1 : List SlidePart)
    (h : add_audio_to_slide slides n = some slides1) :
    ∃ part, slides.get? (n - 1) = some part ∧ part.doc.hasSpTree = true ∧
      slides1 = slides.set (n - 1)
        { part with doc := { part.doc with cNvPrIds := part.doc.cNvPrIds ++
            [intToName (get_next_shape_id part.doc.cNvPrIds)] } } := by
  rw [add_audio_to_slide] at h
  cases hg : slides.get? (n - 1) with
  | none =>
    simp only [hg] at h
    exact Option.noConfusion h
  | some part =>
    simp only [hg] at h
    by_cases hsp : part.doc.hasSpTree = true
    · rw [if_pos hsp] at h
      injection h with h2
      exact ⟨part, rfl, hsp, h2.symm⟩
    · rw [if_neg hsp] at h
      exact Option.noConfusion h

theorem modifySlide_get_self (slides : List SlidePart) (idx : Nat) (f : SlidePart → SlidePart)
    (part : SlidePart) (h : slides.get? idx = some part) :
    (modifySlide slides idx f).get? idx = some (f part) := by
  rw [modifySlide]
  simp only [h]
  rw [List.get?_set, if_pos rfl, h]
  rfl

/-- C6: `add_relationships` appends exactly three edges — two referencing the
same `../media/media{N}.mp3` target under the distinct standard-audio and
vendor-extension media roles, plus a third referencing the separate icon target
`../media/image{N}.png` — and every successful embedding run installs exactly
this edge set into the target slide's relationship part. -/
theorem c6_dual_edge_pattern :
    (∀ (rels : Option (List Relationship)) (m i : Int),
      (add_relationships rels m i).take (rels.getD []).length = rels.getD [] ∧
      (add_relationships rels m i).drop (rels.getD []).length =
        [⟨"rIdMedia".data, msMediaRelType, relTargetMedia m⟩,
         ⟨"rIdAudio".data, audioRelType, relTargetMedia m⟩,
         ⟨"rIdIcon".data, imageRelType, relTargetImage i⟩] ∧
      msMediaRelType ≠ audioRelType ∧
      relTargetMedia m ≠ relTargetImage i) ∧
    (∀ (slide_num : Int) (fs : FS) (pkg : Package) (fs' : FS),
      fs.pptx = some pkg → embed_audio slide_num fs = (true, fs') →
      ∃ out part part', fs'.output = some out ∧
        pkg.slides.get? (slide_num.toNat - 1) = some part ∧
        out.slides.get? (slide_num.toNat - 1) = some part' ∧
        part'.rels = some (add_relationships part.rels
          (get_next_media_number pkg.media) (get_next_media_number pkg.media))) := by
  constructor
  · intro rels m i
    refine ⟨?_, ?_, by decide, relTarget_ne m i⟩
    · simp only [add_relationships]
      exact List.take_left _ _
    · simp only [add_relationships]
      exact List.drop_left _ _
  · intro sn fs pkg fs' hp hEq
    cases hm : fs.mp3Exists with
    | false =>
      rw [embed_audio_no_mp3 sn fs pkg hp hm] at hEq
      exact Bool.noConfusion (congrArg Prod.fst hEq)
    | true =>
      by_cases hs : sn < 1
      · rw [embed_audio_bad_slide_num sn fs pkg hp hm hs] at hEq
        exact Bool.noConfusion (congrArg Prod.fst hEq)
      · cases ha : add_audio_to_slide pkg.slides sn.toNat with
        | none =>
          rw [embed_audio_no_slide sn fs pkg hp hm hs ha] at hEq
          exact Bool.noConfusion (congrArg Prod.fst hEq)
        | some slides1 =>
          rw [embed_audio_success sn fs pkg hp hm hs slides1 ha] at hEq
          injection hEq with h1 h2
          obtain ⟨part, hget, hsp, hset⟩ := add_audio_to_slide_inv pkg.slides sn.toNat slides1 ha
          have hget1 : slides1.get? (sn.toNat - 1) = some
              { part with doc := { part.doc with cNvPrIds := part.doc.cNvPrIds ++
                  [intToName (get_next_shape_id part.doc.cNvPrIds)] } } := by
            rw [hset, List.get?_set, if_pos rfl, hget]
            rfl
          have hm2 := modifySlide_get_self slides1 (sn.toNat - 1)
            (fun p => { p with rels := some (add_relationships p.rels
              (get_next_media_number pkg.media) (get_next_media_number pkg.media)) })
            _ hget1
          exact ⟨_, part, _, by rw [← h2], hget, hm2, rfl⟩

/-- C6 witness: a successful run on a one-slide package with an existing
relationship `rId1` installs the three appended edges after it. -/
theorem c6_witness :
    ∃ out part part',
      ((embed_audio 1 ⟨some ⟨[⟨⟨[], true⟩, some [⟨"rId1".data, "t".data, "x".data⟩]⟩],
          none, []⟩, true, none, none⟩).2).output = some out ∧
      (⟨[⟨⟨[], true⟩, some [⟨"rId1".data, "t".data, "x".data⟩]⟩], none, []⟩ :
          Package).slides.get? ((1 : Int).toNat - 1) = some part ∧
      out.slides.get? ((1 : Int).toNat - 1) = some part' ∧
      part'.rels = some (add_relationships part.rels
        (get_next_media_number (⟨[⟨⟨[], true⟩, some [⟨"rId1".data, "t".data, "x".data⟩]⟩],
          none, []⟩ : Package).media)
        (get_next_media_number (⟨[⟨⟨[], true⟩, some [⟨"rId1".data, "t".data, "x".data⟩]⟩],
          none, []⟩ : Package).media)) :=
  c6_dual_edge_pattern.2 1
    ⟨some ⟨[⟨⟨[], true⟩, some [⟨"rId1".data, "t".data, "x".data⟩]⟩], none, []⟩, true, none, none⟩
    ⟨[⟨⟨[], true⟩, some [⟨"rId1".data, "t".data, "x".data⟩]⟩], none, []⟩
    ((embed_audio 1 ⟨some ⟨[⟨⟨[], true⟩, some [⟨"rId1".data, "t".data, "x".data⟩]⟩],
      none, []⟩, true, none, none⟩).2)
    rfl (Prod.ext (by decide) rfl)

theorem ensure_mp3_idem (ct : List CTDefault) :
    ensure_mp3_content_type (ensure_mp3_content_type ct) = ensure_mp3_content_type ct := by
  by_cases h : ct.any (fun d => d.extension == "mp3".data) = true
  · have h1 : ensure_mp3_content_type ct = ct := by rw [ensure_mp3_content_type, if_pos h]
    rw [h1, h1]
  · have h1 : ensure_mp3_content_type ct = ⟨"mp3".data, "audio/mpeg".data⟩ :: ct := by
      rw [ensure_mp3_content_type, if_neg h]
    rw [h1, ensure_mp3_content_type, if_pos (by rw [List.any_cons]; simp)]

theorem ensure_png_idem (ct : List CTDefault) :
    ensure_png_content_type (ensure_png_content_type ct) = ensure_png_content_type ct := by
  by_cases h : ct.any (fun d => d.extension == "png".data) = true
  · have h1 : ensure_png_content_type ct = ct := by rw [ensure_png_content_type, if_pos h]
    rw [h1, h1]
  · have h1 : ensure_png_content_type ct = ⟨"png".data, "image/png".data⟩ :: ct := by
      rw [ensure_png_content_type, if_neg h]
    rw [h1, ensure_png_content_type, if_pos (by rw [List.any_cons]; simp)]

theorem countExt_ensure_mp3 (ct : List CTDefault) (hle : countExt "mp3".data ct ≤ 1) :
    countExt "mp3".data (ensure_mp3_content_type ct) = 1 := by
  by_cases h : ct.any (fun d => d.extension == "mp3".data) = true
  · rw [ensure_mp3_content_type, if_pos h]
    obtain ⟨x, hx, hpx⟩ := List.any_eq_true.mp h
    have h1 : 0 < countExt "mp3".data ct := by
      rw [countExt]
      exact List.length_pos.mpr (List.ne_nil_of_mem (List.mem_filter.mpr ⟨hx, hpx⟩))
    omega
  · have h0 : ct.filter (fun d => d.extension == "mp3".data) = [] := by
      rw [List.filter_eq_nil_iff]
      exact List.any_eq_false.mp (Bool.eq_false_iff.mpr h)
    rw [ensure_mp3_content_type, if_neg h, countExt, List.filter_cons, if_pos (by decide), h0]
    rfl

theorem countExt_ensure_png (ct : List CTDefault) (hle : countExt "png".data ct ≤ 1) :
    countExt "png".data (ensure_png_content_type ct) = 1 := by
  by_cases h : ct.any (fun d => d.extension == "png".data) = true
  · rw [ensure_png_content_type, if_pos h]
    obtain ⟨x, hx, hpx⟩ := List.any_eq_true.mp h
    have h1 : 0 < countExt "png".data ct := by
      rw [countExt]
      exact List.length_pos.mpr (List.ne_nil_of_mem (List.mem_filter.mpr ⟨hx, hpx⟩))
    omega
  · have h0 : ct.filter (fun d => d.extension == "png".data) = [] := by
      rw [List.filter_eq_nil_iff]
      exact List.any_eq_false.mp (Bool.eq_false_iff.mpr h)
    rw [ensure_png_content_type, if_neg h, countExt, List.filter_cons, if_pos (by decide), h0]
    rfl

/-- C7: registering a content type is idempotent: a second call is a no-op, a
call on a registry that already declares the extension is a no-op, and two
consecutive calls starting from a registry with at most one entry for the
extension leave exactly one default entry for it. -/
theorem c7_content_type_idempotent (ct : List CTDefault) :
    ensure_mp3_content_type (ensure_mp3_content_type ct) = ensure_mp3_content_type ct ∧
    ensure_png_content_type (ensure_png_content_type ct) = ensure_png_content_type ct ∧
    (countExt "mp3".data ct ≤ 1 →
      countExt "mp3".data (ensure_mp3_content_type (ensure_mp3_content_type ct)) = 1) ∧
    (countExt "png".data ct ≤ 1 →
      countExt "png".data (ensure_png_content_type (ensure_png_content_type ct)) = 1) ∧
    (ct.any (fun d => d.extension == "mp3".data) = true → ensure_mp3_content_type ct = ct) ∧
    (ct.any (fun d => d.extension == "png".data) = true → ensure_png_content_type ct = ct) := by
  refine ⟨ensure_mp3_idem ct, ensure_png_idem ct, ?_, ?_, ?_, ?_⟩
  · intro hle
    rw [ensure_mp3_idem ct]
    exact countExt_ensure_mp3 ct hle
  · intro hle
    rw [ensure_png_idem ct]
    exact countExt_ensure_png ct hle
  · intro h
    rw [ensure_mp3_content_type, if_pos h]
  · intro h
    rw [ensure_png_content_type, if_pos h]

/-- C7 witness: two calls on the empty registry leave exactly one entry each
for `mp3` and `png`. -/
theorem c7_witness :
    countExt "mp3".data (ensure_mp3_content_type (ensure_mp3_content_type [])) = 1 ∧
    countExt "png".data (ensure_png_content_type (ensure_png_content_type [])) = 1 ∧
    ensure_mp3_content_type
        [⟨"mp3".data, "audio/mpeg".data⟩, ⟨"png".data, "image/png".data⟩] =
      [⟨"mp3".data, "audio/mpeg".data⟩, ⟨"png".data, "image/png".data⟩] :=
  ⟨(c7_content_type_idempotent []).2.2.1 (by decide),
   (c7_content_type_idempotent []).2.2.2.1 (by decide),
   (c7_content_type_idempotent
     [⟨"mp3".data, "audio/mpeg".data⟩, ⟨"png".data, "image/png".data⟩]).2.2.2.2.1 (by decide)⟩

/-- C8 (amended): on every exit path that begins extraction — success,
slide-not-found, or missing shape tree — the scratch directory is removed
before the invocation returns; the three validation failures detected before
extraction (missing package, missing audio, slide number below 1) return
before the scratch directory is created and leave the filesystem, including any
stale scratch directory left by an earlier interrupted run, untouched. -/
theorem c8_scratch_cleanup (slide_num : Int) (fs : FS) (pkg : Package)
    (hp : fs.pptx = some pkg) (hm : fs.mp3Exists = true) (hs : ¬ slide_num < 1) :
    (embed_audio slide_num fs).2.scratch = none := by
  cases ha : add_audio_to_slide pkg.slides slide_num.toNat with
  | none => rw [embed_audio_no_slide _ _ pkg hp hm hs ha]
  | some slides1 => rw [embed_audio_success _ _ pkg hp hm hs slides1 ha]

/-- C8 counterexample: with a stale scratch directory present and a missing
package file, the invocation fails before extraction and returns with the
scratch directory still present — it is not removed on this exit path. -/
theorem c8_counterexample :
    (embed_audio 1 ⟨none, true, some ⟨[], none, []⟩, none⟩).1 = false ∧
    (embed_audio 1 ⟨none, true, some ⟨[], none, []⟩, none⟩).2.scratch =
      some ⟨[], none, []⟩ :=
  ⟨rfl, rfl⟩

/-- C8 witness: a run that reaches extraction removes even a stale scratch
directory left by an earlier run. -/
theorem c8_witness :
    (embed_audio 1 ⟨some ⟨[⟨⟨[], true⟩, none⟩], none, []⟩, true,
      some ⟨[], none, []⟩, none⟩).2.scratch = none :=
  c8_scratch_cleanup 1
    ⟨some ⟨[⟨⟨[], true⟩, none⟩], none, []⟩, true, some ⟨[], none, []⟩, none⟩
    ⟨[⟨⟨[], true⟩, none⟩], none, []⟩ rfl rfl (by norm_num)

/-- C9 (amended): the converter splits the input on `---`, drops the
frontmatter segment when the first non-blank segment contains `marp:`, drops
whitespace-only segments, and produces exactly one slide per remaining segment
in source order; a slide's title is the stripped text of the last `#`/`##`
heading line of its segment, or empty when the segment has no heading line;
`create_presentation` then emits one deck slide per parsed slide, in order,
carrying its title. -/
theorem c9_one_slide_per_segment :
    (∀ md : Name, (parse_markdown_slides md).length = (keptSegments md).length) ∧
    (∀ (md : Name) (i : Nat) (h : i < (parse_markdown_slides md).length)
      (h' : i < (keptSegments md).length),
      (parse_markdown_slides md).get ⟨i, h⟩ = parseSegment ((keptSegments md).get ⟨i, h'⟩)) ∧
    (∀ seg : Name, (parseSegment seg).title =
      match lastTitleLine (splitOn "\n".data (pyStrip seg)) with
      | some l => pyStrip (dropHashes l)
      | none => []) ∧
    (∀ ps : List ParsedSlide, (create_presentation ps).length = ps.length ∧
      (create_presentation ps).map DeckSlide.title = ps.map ParsedSlide.title) := by
  refine ⟨?_, ?_, ?_, ?_⟩
  · intro md
    rw [parse_markdown_slides, List.length_map]
  · intro md i h h'
    simp [parse_markdown_slides, List.get_eq_getElem, List.getElem_map]
  · intro seg
    simp only [parseSegment]
    exact parseLoop_title (splitOn "\n".data (pyStrip seg)) [] []
  · intro ps
    constructor
    · rw [create_presentation, List.length_map]
    · rw [create_presentation, List.map_map]
      rfl

/-- C9 counterexample: the input `"# T---   ---hello"` has three separator
segments but yields only two slides (the whitespace-only segment is dropped),
and the second slide's title is empty because its segment has no heading line —
so not every slide's title is taken from a heading line of its segment. -/
theorem c9_counterexample :
    (splitOn "---".data "# T---   ---hello".data).length = 3 ∧
    parse_markdown_slides "# T---   ---hello".data =
      [⟨"T".data, []⟩, ⟨[], "hello".data⟩] ∧
    (splitOn "\n".data (pyStrip "hello".data)).all (fun l => !isTitleLine l) = true :=
  ⟨by decide, by decide, by decide⟩

/-- C9 witness: the slide-per-segment correspondence and title rule evaluated
on a concrete two-segment document. -/
theorem c9_witness :
    (parse_markdown_slides "# A\nx\n---\n## B\n- y".data).get ⟨1, by decide⟩ =
      parseSegment ((keptSegments "# A\nx\n---\n## B\n- y".data).get ⟨1, by decide⟩) ∧
    (parseSegment "para\n## B2\ntext".data).title = pyStrip (dropHashes "## B2".data) := by
  constructor
  · exact c9_one_slide_per_segment.2.1 "# A\nx\n---\n## B\n- y".data 1 (by decide) (by decide)
  · have h := c9_one_slide_per_segment.2.2.1 "para\n## B2\ntext".data
    exact h.trans (by decide)

/-- C10: in `create_presentation`, every content line whose stripped form
starts with `"- "` is rendered by the first branch as a level-0 bullet at 18pt,
and the level-1 sub-bullet branch is unreachable: a stripped line can never
start with `"  - "`, because stripping removes exactly the leading whitespace
that test requires. -/
theorem c10_sub_bullet_unreachable (line : Name) :
    (startsWith "- ".data (pyStrip line) = true →
      renderLine line = ⟨(pyStrip line).drop 2, 0, 18, false⟩) ∧
    startsWith "  - ".data (pyStrip line) = false := by
  constructor
  · intro h
    simp only [renderLine]
    rw [if_pos h]
  · exact pyStrip_no_indent line

/-- C10 witness: the line `"  - sub"`, written as a markdown sub-bullet, strips
to `"- sub"` and is rendered by the level-0 branch at 18pt, not as a level-1
16pt sub-bullet. -/
theorem c10_witness :
    startsWith "- ".data (pyStrip "  - sub".data) = true ∧
    renderLine "  - sub".data = ⟨"sub".data, 0, 18, false⟩ := by
  refine ⟨by decide, ?_⟩
  have h := (c10_sub_bullet_unreachable "  - sub".data).1 (by decide)
  exact h.trans (by decide)
